import Mathlib

/-!
A shallow embedding of the authentication and authorization core of the
sensu-go backend, covering:

* `backend/authentication/jwt/jwt.go` — token issuance (`AccessToken`,
  `RefreshToken`), secret bootstrap (`InitSecret`), parsing and validation
  (`parseToken`, `ValidateToken`, `ValidateExpiredToken`), and context
  binding of claims (`SetClaimsIntoContext`, `GetClaimsFromContext`).
* the Organizations action controller (`Find`, `Create`, `Update`), whose
  source is absent from the snapshot (only its tests are present); those
  definitions are modelled from the specification, as marked in their
  doc comments.

Modelling conventions:
* Byte strings are `List Nat`; machine time is the Unix-seconds instant
  passed explicitly where the Go code calls `time.Now()`.
* The outcome of the entropy source (`utilbytes.Random`) is passed as an
  `Option Bytes` argument: `none` models a failed read.
* HMAC is idealized: a signature value is the constructor
  `Sig.hmac alg key header claims`, so two signatures are equal exactly
  when algorithm, key and signed message coincide (collision-freeness of
  HMAC-SHA2 is assumed, as the jwt-go library does).
* A compact JWT string is modelled at the decoded level: either it fails
  to split/decode into three segments (`TokenWire.malformed`, on which the
  parser yields no token) or it decodes into a header, a claims payload
  and a signature.  A change of one byte of the concrete string changes at
  most one of the three decoded segments or makes the string malformed,
  because the segments are dot-separated; that is how single-byte
  tampering is quantified below.
-/

namespace Sensu

/-- Byte strings (Go `[]byte`), as lists of naturals. -/
abbrev Bytes := List Nat

/-- `types.Claims` wraps `jwt.StandardClaims`; the fields the code sets are
`Subject`, `Id` and `ExpiresAt` (Unix seconds, `0` meaning unset, as in
`jwt.StandardClaims`). -/
structure Claims where
  subject : String
  id : String
  expiresAt : Int
  deriving DecidableEq, Repr

/-- Signing algorithms registered with the jwt-go library that can appear in
a token's `alg` header. -/
inductive Alg
  | HS256
  | HS384
  | HS512
  | RS256
  | AlgNone
  deriving DecidableEq, Repr

/-- The Go type switch `token.Method.(*jwt.SigningMethodHMAC)`: exactly the
HS256/HS384/HS512 methods are HMAC methods. -/
def Alg.isHMAC : Alg → Bool
  | .HS256 => true
  | .HS384 => true
  | .HS512 => true
  | _ => false

/-- JOSE header of a token: the signing algorithm and the `typ` field
(the latter is signed but never inspected by the verifier). -/
structure Header where
  alg : Alg
  typ : String
  deriving DecidableEq, Repr

/-- Idealized MAC: a signature produced by an HMAC method is determined by
the algorithm, the key and the signed message (header plus claims payload);
`raw n` stands for any other byte string occupying the signature segment.
Constructor injectivity models collision-freeness of HMAC. -/
inductive Sig
  | hmac (alg : Alg) (key : Bytes) (header : Header) (claims : Claims)
  | raw (n : Nat)
  deriving DecidableEq, Repr

/-- A structurally well-formed compact JWT: the decoded content of its three
dot-separated base64 segments. -/
structure SignedString where
  header : Header
  claims : Claims
  sig : Sig
  deriving DecidableEq, Repr

/-- A token string on the wire: either it does not split/decode into three
segments (the parser then returns a nil token and a `Malformed` error), or
it decodes into header, claims and signature. -/
inductive TokenWire
  | malformed
  | wellFormed (s : SignedString)
  deriving DecidableEq, Repr

/-- The dynamic type of the Go interface value `token.Claims`. -/
inductive ClaimsValue
  | typesClaims (c : Claims)
  | standardClaims (c : Claims)
  | otherClaims
  deriving DecidableEq, Repr

/-- The comma-ok type assertion `token.Claims.(*types.Claims)`: `some c`
when the interface holds a `*types.Claims`, `none` (a nil pointer)
otherwise. -/
def ClaimsValue.asTypesClaims : ClaimsValue → Option Claims
  | .typesClaims c => some c
  | _ => none

/-- `jwt.Token`: the parsed header, the claims interface value, and the
`Valid` flag set by the parser. -/
structure Token where
  header : Header
  claims : ClaimsValue
  valid : Bool
  deriving DecidableEq, Repr

/-- The error message returned when the entropy source fails. -/
def randomFailedMsg : String := "random read failed"

/-- Bits of `jwt.ValidationError.Errors` used by the code. -/
def VEMalformed : Nat := 1

/-- `jwt.ValidationErrorUnverifiable`: the key function refused the token. -/
def VEUnverifiable : Nat := 2

/-- `jwt.ValidationErrorSignatureInvalid`. -/
def VESignatureInvalid : Nat := 4

/-- `jwt.ValidationErrorExpired`. -/
def VEExpired : Nat := 16

/-- The key bytes actually handed to the HMAC primitive: Go's `hmac.New`
treats a nil key exactly like an empty key, so the package-level `secret`
(`Option Bytes`, `none` = nil slice) collapses to `[]` here. -/
def keyOf : Option Bytes → Bytes
  | none => []
  | some b => b

/-- Lowercase hex digit of a value below 16 (as in Go `encoding/hex`). -/
def hexDigit (n : Nat) : Char :=
  if n < 10 then Char.ofNat (48 + n) else Char.ofNat (87 + n)

/-- Character sequence of the lowercase hex encoding of a byte string. -/
def hexChars : Bytes → List Char
  | [] => []
  | b :: rest => hexDigit (b / 16) :: hexDigit (b % 16) :: hexChars rest

/-- Go `hex.EncodeToString`. -/
def hexEncode (l : Bytes) : String :=
  String.mk (hexChars l)

/-- `defaultExpiration = time.Minute * 15`, in seconds. -/
def defaultExpirationSec : Int := 15 * 60

/-- The header produced by `jwt.NewWithClaims(jwt.SigningMethodHS256, _)`. -/
def jwtHeader : Header :=
  ⟨Alg.HS256, "JWT"⟩

/-- `token.SignedString(secret)` for a token built with
`jwt.NewWithClaims(jwt.SigningMethodHS256, claims)`: the compact string
whose signature is the HS256 HMAC of header and payload under the current
secret (nil secret = empty key). -/
def signClaims (sec : Option Bytes) (c : Claims) : SignedString :=
  ⟨jwtHeader, c, Sig.hmac Alg.HS256 (keyOf sec) jwtHeader c⟩

/-- `AccessToken(username)` from jwt.go: generates a 16-byte random id
(`rnd` is the outcome of `utilbytes.Random(16)`; `none` models a failed
read, on which the Go function returns the error), builds claims with
`Subject = username`, `Id = hex(jti)`, `ExpiresAt = now + 15 minutes`,
and signs them with HS256 under the current secret.  Returns the
structured token and its signed string. -/
def AccessToken (now : Int) (rnd : Option Bytes) (sec : Option Bytes)
    (username : String) : Option (Token × SignedString) :=
  match rnd with
  | none => none
  | some jti =>
    let c : Claims :=
      { subject := username
        id := hexEncode jti
        expiresAt := now + defaultExpirationSec }
    some (⟨jwtHeader, ClaimsValue.typesClaims c, false⟩, signClaims sec c)

/-- `RefreshToken(username)` from jwt.go: same id generation, but the
claims are a bare `jwt.StandardClaims` with no expiry (`ExpiresAt = 0`,
i.e. unset); only the signed string is returned. -/
def RefreshToken (rnd : Option Bytes) (sec : Option Bytes)
    (username : String) : Option SignedString :=
  match rnd with
  | none => none
  | some jti =>
    some (signClaims sec { subject := username, id := hexEncode jti, expiresAt := 0 })

/-- `jwt.StandardClaims.Valid()` at instant `now`, as a validation-error
bitmask: the expired bit is set exactly when an expiry is present and in
the strict past (`verifyExp`: `exp == 0` passes, else `now <= exp`).  The
code never sets `IssuedAt` or `NotBefore`, so those bits stay clear. -/
def claimsValidBits (now : Int) (c : Claims) : Nat :=
  if c.expiresAt ≠ 0 ∧ now > c.expiresAt then VEExpired else 0

/-- The signature-verification step of `jwt.Parser.ParseWithClaims`: the
method named in the header recomputes the MAC of the signed part under the
key returned by the key function and compares. -/
def sigBits (sec : Option Bytes) (s : SignedString) : Nat :=
  if s.sig = Sig.hmac s.header.alg (keyOf sec) s.header s.claims then 0
  else VESignatureInvalid

/-- `parseToken(tokenString)` from jwt.go, i.e.
`jwt.ParseWithClaims(tokenString, &types.Claims{}, keyFunc)` where
`keyFunc` rejects any method that is not `*jwt.SigningMethodHMAC` and
otherwise returns the package secret.  Result is the pair (token, error):
a malformed string yields no token and the `Malformed` bit; a non-HMAC
algorithm yields an unverified token and the `Unverifiable` bit (claims
validation and signature verification are skipped); otherwise the claims
bits and the signature bit are accumulated, and the token is `Valid` only
if no bit is set. -/
def parseToken (sec : Option Bytes) (now : Int) (w : TokenWire) :
    Option Token × Option Nat :=
  match w with
  | .malformed => (none, some VEMalformed)
  | .wellFormed s =>
    if s.header.alg.isHMAC then
      let bits := claimsValidBits now s.claims ||| sigBits sec s
      if bits = 0 then (some ⟨s.header, ClaimsValue.typesClaims s.claims, true⟩, none)
      else (some ⟨s.header, ClaimsValue.typesClaims s.claims, false⟩, some bits)
    else
      (some ⟨s.header, ClaimsValue.typesClaims s.claims, false⟩, some VEUnverifiable)

/-- `ValidateToken(tokenString)` from jwt.go: parse, then return the token
only when the claims are a `*types.Claims` and the token is `Valid`;
`none` models the `(nil, err)` error return. -/
def ValidateToken (sec : Option Bytes) (now : Int) (w : TokenWire) : Option Token :=
  match parseToken sec now w with
  | (none, _) => none
  | (some tok, _) =>
    if tok.claims.asTypesClaims.isSome ∧ tok.valid then some tok else none

/-- `ValidateExpiredToken(tokenString)` from jwt.go: parse; if the token is
valid return it; otherwise inspect the `jwt.ValidationError` bitmask,
clear the `Expired` bit when set (`Errors ^= ValidationErrorExpired` under
the `&` guard), and return the token exactly when no other bit remains. -/
def ValidateExpiredToken (sec : Option Bytes) (now : Int) (w : TokenWire) : Option Token :=
  match parseToken sec now w with
  | (none, _) => none
  | (some tok, err) =>
    if tok.claims.asTypesClaims.isSome then
      if tok.valid then some tok
      else
        match err with
        | some bits =>
          let bits2 := if bits &&& VEExpired ≠ 0 then bits ^^^ VEExpired else bits
          if bits2 = 0 then some tok else none
        | none => none
    else none

/-- A value stored in a request context at the private `claimsKey`: either
a `*types.Claims` pointer (possibly nil) or a value of some other type. -/
inductive CtxVal
  | claimsPtr (p : Option Claims)
  | otherVal
  deriving DecidableEq, Repr

/-- A request context restricted to the private `claimsKey` slot: `none`
means no value is bound there (Go `ctx.Value(claimsKey)` returns nil). -/
abbrev ReqContext := Option CtxVal

/-- `SetClaimsIntoContext(r, token)` from jwt.go: the comma-ok assertion
`claims, _ := token.Claims.(*types.Claims)` silently yields a nil pointer
on failure, and `context.WithValue` then binds that (possibly nil) pointer
at `claimsKey` — the stored interface value is non-nil even when the
pointer is nil. -/
def SetClaimsIntoContext (_r : ReqContext) (tok : Token) : ReqContext :=
  some (CtxVal.claimsPtr tok.claims.asTypesClaims)

/-- `GetClaimsFromContext(r)` from jwt.go: if no value is bound at
`claimsKey` return nil; if the bound value is not a `*types.Claims`
return nil; otherwise return the stored pointer (which may itself be
nil). -/
def GetClaimsFromContext : ReqContext → Option Claims
  | none => none
  | some (CtxVal.claimsPtr p) => p
  | some CtxVal.otherVal => none

/-- One observed behavior of the secret store used by `InitSecret`:
the outcome of `GetJWTSecret()` and of `CreateJWTSecret(b)` (`none` =
success). -/
structure SecretStore where
  getJWTSecret : Except String Bytes
  createJWTSecret : Bytes → Option String

/-- A store round-trip performed by `InitSecret`. -/
inductive SecretStoreCall
  | getCall
  | createCall (b : Bytes)
  deriving DecidableEq, Repr

/-- Result of one `InitSecret` call: the package-level `secret` after the
call, the returned error, and the store calls performed. -/
structure InitResult where
  secretAfter : Option Bytes
  error : Option String
  calls : List SecretStoreCall
  deriving DecidableEq, Repr

/-- `InitSecret(store)` from jwt.go, as a transition on the package-level
`secret` (`none` = nil slice).  If the secret is already set, nothing
happens and nil is returned.  Otherwise `GetJWTSecret` is called; any
fetch error is interpreted as absence, on which 32 random bytes are drawn
(`rnd`, `none` modelling a failed read) and persisted via
`CreateJWTSecret`; the package secret is committed only after fetch or
create succeeded, and the errors of random generation and creation are
returned with the secret left unset. -/
def InitSecret (st : SecretStore) (rnd : Option Bytes) (sec : Option Bytes) :
    InitResult :=
  match sec with
  | some s => ⟨some s, none, []⟩
  | none =>
    match st.getJWTSecret with
    | .ok s => ⟨some s, none, [SecretStoreCall.getCall]⟩
    | .error _ =>
      match rnd with
      | none => ⟨none, some randomFailedMsg, [SecretStoreCall.getCall]⟩
      | some s =>
        match st.createJWTSecret s with
        | some e => ⟨none, some e, [SecretStoreCall.getCall, SecretStoreCall.createCall s]⟩
        | none => ⟨some s, none, [SecretStoreCall.getCall, SecretStoreCall.createCall s]⟩

/-- Modelled from the spec: an authorization rule — a grant of permissions
over a resource type, scoped to an organization and environment, where
the literal `"*"` is the wildcard scope (§3, §4.5 of the spec; the
`types.Rule` source is not in the snapshot). -/
structure Rule where
  type : String
  permissions : List String
  organization : String
  environment : String
  deriving DecidableEq, Repr

/-- Resource-type name of organizations. -/
def RuleTypeOrganization : String := "organizations"

/-- Permission names. -/
def RulePermCreate : String := "create"

/-- Read permission name. -/
def RulePermRead : String := "read"

/-- Update permission name. -/
def RulePermUpdate : String := "update"

/-- Delete permission name. -/
def RulePermDelete : String := "delete"

/-- Modelled from the spec: a rule matches a requested
(type, permission, org, env) tuple when its type equals the requested
type, its permission set contains the requested permission, and each of
its scopes equals the requested scope or is the wildcard (§4.5). -/
def ruleMatches (r : Rule) (resType perm org env : String) : Bool :=
  r.type == resType && r.permissions.contains perm &&
    (r.organization == "*" || r.organization == org) &&
    (r.environment == "*" || r.environment == env)

/-- Modelled from the spec: the policy decision — true exactly when some
rule of the requester's rule set matches; no rules means deny (§4.5). -/
def Evaluate (rules : List Rule) (resType perm org env : String) : Bool :=
  rules.any (fun r => ruleMatches r resType perm org env)

/-- The request context seen by an action controller: the requester's rule
set and the org/env scope of the request (as installed by the test
helpers `ContextWithRules` and `ContextWithOrgEnv`). -/
structure ActionContext where
  rules : List Rule
  org : String
  env : String
  deriving Repr

/-- Modelled from the spec: the controller's permission check for one
permission on the organizations resource type in the request scope. -/
def canPerm (ctx : ActionContext) (perm : String) : Bool :=
  Evaluate ctx.rules RuleTypeOrganization perm ctx.org ctx.env

/-- The closed error taxonomy of the actions package. -/
inductive ErrCode
  | InternalErr
  | InvalidArgument
  | NotFound
  | AlreadyExistsErr
  | PermissionDenied
  deriving DecidableEq, Repr

/-- An organization record: its identity key is its name. -/
structure Organization where
  name : String
  deriving DecidableEq, Repr

/-- A character admitted by the organization-name pattern
`^[a-z0-9/_.-]+$`, decided on the character's code point. -/
def validNameChar (c : Char) : Bool :=
  let n := c.toNat
  (97 ≤ n && n ≤ 122) || (48 ≤ n && n ≤ 57) ||
    n == 47 || n == 95 || n == 46 || n == 45

/-- Modelled from the spec: organization-name validation — non-empty and
matching `^[a-z0-9/_.-]+$` (§3; analogous to `ValidateAssetName` in the
snapshot's types package). -/
def validName (s : String) : Bool :=
  !s.isEmpty && s.data.all validNameChar

/-- Modelled from the spec: `Organization.Validate()` checks the name
format (§3, §4.6). -/
def Organization.validate (o : Organization) : Bool :=
  validName o.name

/-- One observed behavior of the organization store: the outcome of
`GetOrganizationByName` per name and of `UpdateOrganization` per record
(`none` = success; the store upserts keyed by name). -/
structure OrgStore where
  getByName : String → Except String (Option Organization)
  updateOrg : Organization → Option String

/-- Modelled from the spec: `Find(ctx, name)` of the Organizations action
controller (its source is absent from the snapshot; only its tests are).
Per §4.6: empty name ⇒ `NotFound`; a denied Read permission is folded
into `NotFound` so existence is not revealed; then the record is fetched,
a store failure is reclassified as `InternalErr` (§7) and an absent
record is `NotFound`. -/
def OrgFind (st : OrgStore) (ctx : ActionContext) (name : String) :
    Except ErrCode Organization :=
  if name == "" then .error ErrCode.NotFound
  else if !(canPerm ctx RulePermRead) then .error ErrCode.NotFound
  else
    match st.getByName name with
    | .error _ => .error ErrCode.InternalErr
    | .ok none => .error ErrCode.NotFound
    | .ok (some o) => .ok o

/-- Modelled from the spec: `Create(ctx, record)` of the Organizations
action controller.  Per §4.6, in order: Create permission ⇒
`PermissionDenied` if absent; field validation ⇒ `InvalidArgument`;
existence check — store error ⇒ `InternalErr`, record found ⇒
`AlreadyExistsErr`; persist — store error ⇒ `InternalErr`; else nil. -/
def OrgCreate (st : OrgStore) (ctx : ActionContext) (o : Organization) :
    Option ErrCode :=
  if !(canPerm ctx RulePermCreate) then some ErrCode.PermissionDenied
  else if !o.validate then some ErrCode.InvalidArgument
  else
    match st.getByName o.name with
    | .error _ => some ErrCode.InternalErr
    | .ok (some _) => some ErrCode.AlreadyExistsErr
    | .ok none =>
      match st.updateOrg o with
      | some _ => some ErrCode.InternalErr
      | none => none

/-- Modelled from the spec: `Update(ctx, record)` of the Organizations
action controller.  Per §4.6, in order: Update permission ⇒
`PermissionDenied`; fetch the existing record — store error ⇒
`InternalErr`, absent ⇒ `NotFound`; validation ⇒ `InvalidArgument`;
persist — store error ⇒ `InternalErr`; else nil. -/
def OrgUpdate (st : OrgStore) (ctx : ActionContext) (o : Organization) :
    Option ErrCode :=
  if !(canPerm ctx RulePermUpdate) then some ErrCode.PermissionDenied
  else
    match st.getByName o.name with
    | .error _ => some ErrCode.InternalErr
    | .ok none => some ErrCode.NotFound
    | .ok (some _) =>
      if !o.validate then some ErrCode.InvalidArgument
      else
        match st.updateOrg o with
        | some _ => some ErrCode.InternalErr
        | none => none

/-- A store behavior holding exactly the given records, every mutation
succeeding: lookups find the record with the requested name, if any. -/
def storeWith (l : List Organization) : OrgStore :=
  ⟨fun n => .ok (l.find? (fun o => o.name == n)), fun _ => none⟩

/-- The clean store: no records, every call succeeds. -/
def cleanStore : OrgStore :=
  storeWith []

/-- A store whose fetch call fails. -/
def storeErrMsg : String := "dunno"

/-- A store behavior whose `GetOrganizationByName` fails. -/
def failFetchStore : OrgStore :=
  ⟨fun _ => .error storeErrMsg, fun _ => none⟩

/-- A store behavior with no records whose `UpdateOrganization` fails. -/
def failUpdateStore : OrgStore :=
  ⟨fun _ => .ok none, fun _ => some storeErrMsg⟩

/-- An uppercase ASCII letter or the space character, decided on the code
point. -/
def isUpperOrSpace (c : Char) : Bool :=
  (65 ≤ c.toNat && c.toNat ≤ 90) || c.toNat == 32

/-- The string contains an uppercase letter or a space. -/
def hasUpperOrSpace (s : String) : Bool :=
  s.data.any isUpperOrSpace

/-- The wildcard scope literal. -/
def wildcard : String := "*"

/-- The default org/env scope installed by the test contexts. -/
def defaultScope : String := "default"

/-- `types.FixtureRuleWithPerms(types.RuleTypeOrganization, perms...)`:
a rule on organizations with the given permissions and wildcard scopes. -/
def ruleWithPerms (perms : List String) : Rule :=
  ⟨RuleTypeOrganization, perms, wildcard, wildcard⟩

/-- A request context carrying one organizations rule with the given
permissions, in the default org/env scope. -/
def ctxWithPerms (perms : List String) : ActionContext :=
  ⟨[ruleWithPerms perms], defaultScope, defaultScope⟩

/-- Context with only Create permission on organizations. -/
def ctxCreate : ActionContext := ctxWithPerms [RulePermCreate]

/-- Context with only Read permission on organizations. -/
def ctxRead : ActionContext := ctxWithPerms [RulePermRead]

/-- Context with only Update permission on organizations. -/
def ctxUpdatePerm : ActionContext := ctxWithPerms [RulePermUpdate]

/-- The record used in the concrete scenarios. -/
def org1 : Organization := ⟨"org1"⟩

/-- The invalid record of the tests: uppercase letters and spaces. -/
def badNameOrg : Organization := ⟨"I like turtles"⟩

/-- The empty name argument. -/
def emptyName : String := ""

/-- A concrete username for witnesses. -/
def userBob : String := "bob"

/-- Concrete claims for witnesses. -/
def aliceClaims : Claims := ⟨"alice", "00ff", 1000⟩

/-- A header declaring the non-HMAC RS256 algorithm. -/
def rsHeader : Header := ⟨Alg.RS256, "JWT"⟩

/-- A token declaring RS256 whose signature segment holds exactly the MAC
value the verifier would compute if it accepted the declared method. -/
def nonHmacToken : SignedString :=
  ⟨rsHeader, aliceClaims, Sig.hmac Alg.RS256 [] rsHeader aliceClaims⟩

/-- A failing store for the secret bootstrap. -/
def downMsg : String := "store down"

/-- A secret store whose fetch and create both fail. -/
def downSecretStore : SecretStore :=
  ⟨Except.error downMsg, fun _ => some downMsg⟩

/-- A secret store holding the bytes `[7]`. -/
def okSecretStore : SecretStore :=
  ⟨Except.ok [7], fun _ => none⟩

/- ### Helper lemmas -/

/-- An uppercase letter or space is outside the `[a-z0-9/_.-]` class. -/
theorem validNameChar_of_upperOrSpace (c : Char) (h : isUpperOrSpace c = true) :
    validNameChar c = false := by
  simp [isUpperOrSpace] at h
  simp [validNameChar]
  omega

/-- A name containing an uppercase letter or a space fails validation. -/
theorem validName_false_of_hasUpperOrSpace (s : String)
    (h : hasUpperOrSpace s = true) : validName s = false := by
  simp [hasUpperOrSpace, List.any_eq_true] at h
  obtain ⟨c, hc, hcu⟩ := h
  have hv := validNameChar_of_upperOrSpace c hcu
  simp [validName, List.all_eq_true]
  intro _
  exact ⟨c, hc, by simp [hv]⟩

/-- The hex encoding doubles the length. -/
theorem hexChars_length (l : Bytes) : (hexChars l).length = 2 * l.length := by
  induction l with
  | nil => rfl
  | cons b rest ih => simp [hexChars, ih]; omega

/-- Parsing a string signed by `signClaims` under the same secret: the
token is valid unless the claims carry an expiry in the strict past, in
which case exactly the `Expired` bit is reported. -/
theorem parse_signed (sec : Option Bytes) (now : Int) (c : Claims) :
    parseToken sec now (TokenWire.wellFormed (signClaims sec c)) =
      if c.expiresAt ≠ 0 ∧ now > c.expiresAt
      then (some ⟨jwtHeader, ClaimsValue.typesClaims c, false⟩, some VEExpired)
      else (some ⟨jwtHeader, ClaimsValue.typesClaims c, true⟩, none) := by
  by_cases h : c.expiresAt ≠ 0 ∧ now > c.expiresAt
  · simp [parseToken, signClaims, jwtHeader, Alg.isHMAC, claimsValidBits, sigBits, h,
      VEExpired, VESignatureInvalid]
  · simp [parseToken, signClaims, jwtHeader, Alg.isHMAC, claimsValidBits, sigBits, h]

/-- A token whose signature is not the MAC the verifier recomputes never
passes `ValidateToken`. -/
theorem validateToken_none_of_badSig (sec : Option Bytes) (now : Int)
    (s : SignedString)
    (h : s.sig ≠ Sig.hmac s.header.alg (keyOf sec) s.header s.claims) :
    ValidateToken sec now (TokenWire.wellFormed s) = none := by
  by_cases halg : s.header.alg.isHMAC
  · have hb : claimsValidBits now s.claims ||| sigBits sec s ≠ 0 := by
      unfold claimsValidBits sigBits VEExpired VESignatureInvalid
      rw [if_neg h]
      split <;> decide
    simp [ValidateToken, parseToken, halg, hb]
  · simp [ValidateToken, parseToken, halg]

/-- A token whose signature is not the MAC the verifier recomputes never
passes `ValidateExpiredToken` either: after the `Expired` bit is cleared,
the `SignatureInvalid` (or `Unverifiable`) bit remains. -/
theorem validateExpiredToken_none_of_badSig (sec : Option Bytes) (now : Int)
    (s : SignedString)
    (h : s.sig ≠ Sig.hmac s.header.alg (keyOf sec) s.header s.claims) :
    ValidateExpiredToken sec now (TokenWire.wellFormed s) = none := by
  by_cases halg : s.header.alg.isHMAC
  · have hsb : sigBits sec s = VESignatureInvalid := if_neg h
    by_cases hex : s.claims.expiresAt ≠ 0 ∧ now > s.claims.expiresAt
    · have hcb : claimsValidBits now s.claims = VEExpired := if_pos hex
      simp [ValidateExpiredToken, parseToken, halg, hcb, hsb, VEExpired,
        VESignatureInvalid, ClaimsValue.asTypesClaims]
    · have hcb : claimsValidBits now s.claims = 0 := if_neg hex
      simp [ValidateExpiredToken, parseToken, halg, hcb, hsb, VEExpired,
        VESignatureInvalid, ClaimsValue.asTypesClaims]
      decide
  · simp [ValidateExpiredToken, parseToken, halg, VEUnverifiable, VEExpired,
      ClaimsValue.asTypesClaims]
    decide

/- ### Claim theorems -/

/-- C9: when `SetClaimsIntoContext` receives a token whose `Claims` value
is not a `*types.Claims`, the failed type assertion is discarded and a nil
claims pointer is bound into the returned context; `GetClaimsFromContext`
on that context then returns nil (no panic, no error — the function is
total). -/
theorem setClaims_badType_yields_nil :
    ∀ (r : ReqContext) (tok : Token), tok.claims.asTypesClaims = none →
      SetClaimsIntoContext r tok = some (CtxVal.claimsPtr none) ∧
      GetClaimsFromContext (SetClaimsIntoContext r tok) = none := by
  intro r tok h
  refine ⟨by simp [SetClaimsIntoContext, h], ?_⟩
  simp [SetClaimsIntoContext, h, GetClaimsFromContext]

/-- Witness for C9 at a token carrying a claims value of a foreign type. -/
theorem setClaims_badType_yields_nil_witness :
    SetClaimsIntoContext none ⟨jwtHeader, ClaimsValue.otherClaims, false⟩ =
        some (CtxVal.claimsPtr none) ∧
      GetClaimsFromContext
        (SetClaimsIntoContext none ⟨jwtHeader, ClaimsValue.otherClaims, false⟩) = none :=
  setClaims_badType_yields_nil none ⟨jwtHeader, ClaimsValue.otherClaims, false⟩ rfl

/-- C10: with the package secret still unset (nil), `AccessToken` and
`RefreshToken` succeed for every username as long as the random read
succeeds, signing with the nil key (which the HMAC primitive treats as the
empty key `[]`); neither checks that the secret was initialized. -/
theorem tokens_sign_with_nil_secret :
    ∀ (now : Int) (jti : Bytes) (u : String),
      AccessToken now (some jti) none u =
        some (⟨jwtHeader,
                ClaimsValue.typesClaims ⟨u, hexEncode jti, now + defaultExpirationSec⟩,
                false⟩,
              ⟨jwtHeader, ⟨u, hexEncode jti, now + defaultExpirationSec⟩,
                Sig.hmac Alg.HS256 [] jwtHeader
                  ⟨u, hexEncode jti, now + defaultExpirationSec⟩⟩) ∧
      RefreshToken (some jti) none u =
        some ⟨jwtHeader, ⟨u, hexEncode jti, 0⟩,
              Sig.hmac Alg.HS256 [] jwtHeader ⟨u, hexEncode jti, 0⟩⟩ := by
  intro now jti u
  exact ⟨rfl, rfl⟩

/-- C6: `InitSecret` is idempotent — once a call has succeeded, any later
call (whatever its store behavior or entropy outcome) returns no error,
leaves the committed secret unchanged, and performs no store calls. -/
theorem initSecret_idempotent :
    ∀ (st : SecretStore) (rnd sec : Option Bytes)
      (st2 : SecretStore) (rnd2 : Option Bytes),
      (InitSecret st rnd sec).error = none →
      InitSecret st2 rnd2 (InitSecret st rnd sec).secretAfter =
        ⟨(InitSecret st rnd sec).secretAfter, none, []⟩ := by
  intro st rnd sec st2 rnd2 h
  cases sec with
  | some s => rfl
  | none =>
    cases hg : st.getJWTSecret with
    | ok s => simp [InitSecret, hg]
    | error e =>
      cases rnd with
      | none => simp [InitSecret, hg] at h
      | some s =>
        cases hc : st.createJWTSecret s with
        | none => simp [InitSecret, hg, hc]
        | some e2 => simp [InitSecret, hg, hc] at h

/-- Witness for C6: a first bootstrap that creates and persists a fresh
secret, followed by a call against a completely failing store. -/
theorem initSecret_idempotent_witness :
    (InitSecret okSecretStore none none).error = none ∧
      InitSecret downSecretStore none (InitSecret okSecretStore none none).secretAfter =
        ⟨(InitSecret okSecretStore none none).secretAfter, none, []⟩ :=
  ⟨rfl, initSecret_idempotent okSecretStore none none downSecretStore none rfl⟩

/-- C4: a successful `AccessToken(U)` call yields a token whose claims
have subject `U`, id the (non-empty) hex encoding of the 16 random bytes,
and expiry exactly the issuance instant plus 15 minutes. -/
theorem accessToken_claims_correct :
    ∀ (now : Int) (jti : Bytes) (sec : Option Bytes) (u : String),
      jti.length = 16 →
      ∃ tok s, AccessToken now (some jti) sec u = some (tok, s) ∧
        tok.claims = ClaimsValue.typesClaims ⟨u, hexEncode jti, now + 15 * 60⟩ ∧
        hexEncode jti ≠ "" := by
  intro now jti sec u h16
  refine ⟨_, _, rfl, rfl, ?_⟩
  intro hcontra
  have hdata : hexChars jti = [] := congrArg String.data hcontra
  have h2 : (hexChars jti).length = 2 * jti.length := hexChars_length jti
  rw [hdata, h16] at h2
  simp at h2

/-- Witness for C4 at a concrete 16-byte random id. -/
theorem accessToken_claims_correct_witness :
    (List.range 16).length = 16 ∧
      ∃ tok s, AccessToken 0 (some (List.range 16)) none userBob = some (tok, s) ∧
        tok.claims =
          ClaimsValue.typesClaims ⟨userBob, hexEncode (List.range 16), 0 + 15 * 60⟩ ∧
        hexEncode (List.range 16) ≠ "" :=
  ⟨by decide, accessToken_claims_correct 0 (List.range 16) none userBob (by decide)⟩

/-- C3: `parseToken` rejects every token whose declared algorithm is not
in the HMAC family — the key function refuses the token, so the parser
reports `Unverifiable` and never even reaches signature verification,
whatever the signature segment holds; hence `ValidateToken` fails too.
The accepted method is thus pinned by the verifier, not taken from the
token's header. -/
theorem parseToken_rejects_nonHMAC :
    ∀ (sec : Option Bytes) (now : Int) (s : SignedString),
      s.header.alg.isHMAC = false →
      parseToken sec now (TokenWire.wellFormed s) =
        (some ⟨s.header, ClaimsValue.typesClaims s.claims, false⟩, some VEUnverifiable) ∧
      ValidateToken sec now (TokenWire.wellFormed s) = none := by
  intro sec now s h
  have hp : parseToken sec now (TokenWire.wellFormed s) =
      (some ⟨s.header, ClaimsValue.typesClaims s.claims, false⟩, some VEUnverifiable) := by
    simp [parseToken, h]
  exact ⟨hp, by simp [ValidateToken, hp]⟩

/-- Witness for C3 at an RS256 token whose signature segment holds exactly
the MAC the verifier would compute had it accepted the declared method. -/
theorem parseToken_rejects_nonHMAC_witness :
    parseToken none 0 (TokenWire.wellFormed nonHmacToken) =
        (some ⟨rsHeader, ClaimsValue.typesClaims aliceClaims, false⟩, some VEUnverifiable) ∧
      ValidateToken none 0 (TokenWire.wellFormed nonHmacToken) = none :=
  parseToken_rejects_nonHMAC none 0 nonHmacToken rfl

/-- C2: for a token correctly signed with the current secret whose expiry
lies in the past, `ValidateToken` fails while `ValidateExpiredToken`
returns the parsed token carrying the same claims; for a token whose
signature does not verify, both fail. -/
theorem validate_expired_vs_tampered :
    (∀ (sec : Option Bytes) (now : Int) (c : Claims),
       c.expiresAt ≠ 0 → c.expiresAt < now →
       ValidateToken sec now (TokenWire.wellFormed (signClaims sec c)) = none ∧
       ValidateExpiredToken sec now (TokenWire.wellFormed (signClaims sec c)) =
         some ⟨jwtHeader, ClaimsValue.typesClaims c, false⟩) ∧
    (∀ (sec : Option Bytes) (now : Int) (s : SignedString),
       s.sig ≠ Sig.hmac s.header.alg (keyOf sec) s.header s.claims →
       ValidateToken sec now (TokenWire.wellFormed s) = none ∧
       ValidateExpiredToken sec now (TokenWire.wellFormed s) = none) := by
  constructor
  · intro sec now c h0 hlt
    have hp := parse_signed sec now c
    rw [if_pos ⟨h0, hlt⟩] at hp
    constructor
    · simp [ValidateToken, hp]
    · simp [ValidateExpiredToken, hp, ClaimsValue.asTypesClaims, VEExpired]
  · intro sec now s hsig
    exact ⟨validateToken_none_of_badSig sec now s hsig,
      validateExpiredToken_none_of_badSig sec now s hsig⟩

/-- Witness for C2: a token for the claims `aliceClaims` (expiry 1000)
checked at instant 2000 under the secret `[1, 2]`, and the same wire with
its signature segment replaced by a raw byte string. -/
theorem validate_expired_vs_tampered_witness :
    (ValidateToken (some [1, 2]) 2000
        (TokenWire.wellFormed (signClaims (some [1, 2]) aliceClaims)) = none ∧
      ValidateExpiredToken (some [1, 2]) 2000
        (TokenWire.wellFormed (signClaims (some [1, 2]) aliceClaims)) =
        some ⟨jwtHeader, ClaimsValue.typesClaims aliceClaims, false⟩) ∧
    (ValidateToken (some [1, 2]) 2000
        (TokenWire.wellFormed ⟨jwtHeader, aliceClaims, Sig.raw 5⟩) = none ∧
      ValidateExpiredToken (some [1, 2]) 2000
        (TokenWire.wellFormed ⟨jwtHeader, aliceClaims, Sig.raw 5⟩) = none) :=
  ⟨validate_expired_vs_tampered.1 (some [1, 2]) 2000 aliceClaims (by decide) (by decide),
   validate_expired_vs_tampered.2 (some [1, 2]) 2000
     ⟨jwtHeader, aliceClaims, Sig.raw 5⟩ (by decide)⟩

/-- C5: signing a non-expired token and validating the resulting string
with the same secret succeeds and returns the original claims; any change
of one byte of the compact string — which alters at most one of its three
dot-separated segments, or makes it unparseable — fails validation:
a changed header, a changed claims payload, a changed signature, and a
malformed string are each rejected. -/
theorem roundTrip_and_byteChange :
    ∀ (sec : Option Bytes) (c : Claims) (now : Int),
      c.expiresAt = 0 ∨ now ≤ c.expiresAt →
      (ValidateToken sec now (TokenWire.wellFormed (signClaims sec c)) =
         some ⟨jwtHeader, ClaimsValue.typesClaims c, true⟩) ∧
      (∀ h2 : Header, h2 ≠ jwtHeader →
         ValidateToken sec now
           (TokenWire.wellFormed ⟨h2, c, (signClaims sec c).sig⟩) = none) ∧
      (∀ c2 : Claims, c2 ≠ c →
         ValidateToken sec now
           (TokenWire.wellFormed ⟨jwtHeader, c2, (signClaims sec c).sig⟩) = none) ∧
      (∀ g : Sig, g ≠ (signClaims sec c).sig →
         ValidateToken sec now (TokenWire.wellFormed ⟨jwtHeader, c, g⟩) = none) ∧
      ValidateToken sec now TokenWire.malformed = none := by
  intro sec c now hfresh
  have hcond : ¬(c.expiresAt ≠ 0 ∧ now > c.expiresAt) := by
    rcases hfresh with h0 | hle
    · exact fun hx => hx.1 h0
    · exact fun hx => absurd hx.2 (not_lt.2 hle)
  refine ⟨?_, ?_, ?_, ?_, ?_⟩
  · have hp := parse_signed sec now c
    rw [if_neg hcond] at hp
    simp [ValidateToken, hp, ClaimsValue.asTypesClaims]
  · intro h2 hne
    refine validateToken_none_of_badSig sec now ⟨h2, c, (signClaims sec c).sig⟩ ?_
    intro heq
    simp only [signClaims] at heq
    rw [Sig.hmac.injEq] at heq
    exact hne heq.2.2.1.symm
  · intro c2 hne
    refine validateToken_none_of_badSig sec now ⟨jwtHeader, c2, (signClaims sec c).sig⟩ ?_
    intro heq
    simp only [signClaims, jwtHeader] at heq
    rw [Sig.hmac.injEq] at heq
    exact hne heq.2.2.2.symm
  · intro g hne
    exact validateToken_none_of_badSig sec now ⟨jwtHeader, c, g⟩ hne
  · rfl

/-- Witness for C5: a fresh token for `aliceClaims` validated at instant
500 under the secret `[1, 2]`, and three single-segment changes of its
string: the header replaced by one declaring HS384, the subject changed,
and the signature replaced by a raw byte string. -/
theorem roundTrip_and_byteChange_witness :
    (ValidateToken (some [1, 2]) 500
        (TokenWire.wellFormed (signClaims (some [1, 2]) aliceClaims)) =
        some ⟨jwtHeader, ClaimsValue.typesClaims aliceClaims, true⟩) ∧
      ValidateToken (some [1, 2]) 500
        (TokenWire.wellFormed
          ⟨⟨Alg.HS384, jwtHeader.typ⟩, aliceClaims,
            (signClaims (some [1, 2]) aliceClaims).sig⟩) = none ∧
      ValidateToken (some [1, 2]) 500
        (TokenWire.wellFormed
          ⟨jwtHeader, ⟨userBob, aliceClaims.id, aliceClaims.expiresAt⟩,
            (signClaims (some [1, 2]) aliceClaims).sig⟩) = none ∧
      ValidateToken (some [1, 2]) 500
        (TokenWire.wellFormed ⟨jwtHeader, aliceClaims, Sig.raw 5⟩) = none ∧
      ValidateToken (some [1, 2]) 500 TokenWire.malformed = none := by
  have h := roundTrip_and_byteChange (some [1, 2]) aliceClaims 500 (by right; decide)
  exact ⟨h.1, h.2.1 ⟨Alg.HS384, jwtHeader.typ⟩ (by decide),
    h.2.2.1 ⟨userBob, aliceClaims.id, aliceClaims.expiresAt⟩ (by decide),
    h.2.2.2.1 (Sig.raw 5) (by decide), h.2.2.2.2⟩

/-- C1: whenever the caller's rule set does not grant Read on the
organizations resource type, `Find` returns `NotFound` for every name
(never `PermissionDenied`); `Find` also returns `NotFound` on the empty
name and when the store holds no record of the name. -/
theorem orgFind_notFound_semantics :
    (∀ (st : OrgStore) (ctx : ActionContext) (name : String),
       canPerm ctx RulePermRead = false →
       OrgFind st ctx name = Except.error ErrCode.NotFound) ∧
    (∀ (st : OrgStore) (ctx : ActionContext),
       OrgFind st ctx emptyName = Except.error ErrCode.NotFound) ∧
    (∀ (st : OrgStore) (ctx : ActionContext) (name : String),
       st.getByName name = Except.ok none →
       OrgFind st ctx name = Except.error ErrCode.NotFound) := by
  refine ⟨?_, ?_, ?_⟩
  · intro st ctx name h
    by_cases hn : name == ""
    · simp [OrgFind, hn]
    · simp [OrgFind, hn, h]
  · intro st ctx
    simp [OrgFind, emptyName]
  · intro st ctx name hget
    by_cases hn : name == ""
    · simp [OrgFind, hn]
    · by_cases hr : canPerm ctx RulePermRead
      · simp [OrgFind, hn, hr, hget]
      · simp [OrgFind, hn, hr]

/-- Witness for C1: the record `org1` exists but the caller's only rule
grants Create, so `Find` answers `NotFound`; likewise for the empty name
and for a store with no record. -/
theorem orgFind_notFound_semantics_witness :
    OrgFind (storeWith [org1]) ctxCreate org1.name = Except.error ErrCode.NotFound ∧
      OrgFind cleanStore ctxRead emptyName = Except.error ErrCode.NotFound ∧
      OrgFind cleanStore ctxRead org1.name = Except.error ErrCode.NotFound :=
  ⟨orgFind_notFound_semantics.1 (storeWith [org1]) ctxCreate org1.name (by decide),
   orgFind_notFound_semantics.2.1 cleanStore ctxRead,
   orgFind_notFound_semantics.2.2 cleanStore ctxRead org1.name rfl⟩

/-- C7: `Create` decides its outcome in order — missing Create permission
gives `PermissionDenied`; a record failing validation gives
`InvalidArgument`; a failing existence check gives `InternalErr`; an
existing record gives `AlreadyExistsErr`; a failing persist gives
`InternalErr`; otherwise no error.  Concretely, with Create permission
and a clean store, creating `org1` succeeds, and repeating it against the
store now holding `org1` gives `AlreadyExistsErr`. -/
theorem orgCreate_outcomes :
    (∀ (st : OrgStore) (ctx : ActionContext) (o : Organization),
       canPerm ctx RulePermCreate = false →
       OrgCreate st ctx o = some ErrCode.PermissionDenied) ∧
    (∀ (st : OrgStore) (ctx : ActionContext) (o : Organization),
       canPerm ctx RulePermCreate = true → o.validate = false →
       OrgCreate st ctx o = some ErrCode.InvalidArgument) ∧
    (∀ (st : OrgStore) (ctx : ActionContext) (o : Organization) (e : String),
       canPerm ctx RulePermCreate = true → o.validate = true →
       st.getByName o.name = Except.error e →
       OrgCreate st ctx o = some ErrCode.InternalErr) ∧
    (∀ (st : OrgStore) (ctx : ActionContext) (o r : Organization),
       canPerm ctx RulePermCreate = true → o.validate = true →
       st.getByName o.name = Except.ok (some r) →
       OrgCreate st ctx o = some ErrCode.AlreadyExistsErr) ∧
    (∀ (st : OrgStore) (ctx : ActionContext) (o : Organization) (e : String),
       canPerm ctx RulePermCreate = true → o.validate = true →
       st.getByName o.name = Except.ok none → st.updateOrg o = some e →
       OrgCreate st ctx o = some ErrCode.InternalErr) ∧
    (∀ (st : OrgStore) (ctx : ActionContext) (o : Organization),
       canPerm ctx RulePermCreate = true → o.validate = true →
       st.getByName o.name = Except.ok none → st.updateOrg o = none →
       OrgCreate st ctx o = none) ∧
    OrgCreate cleanStore ctxCreate org1 = none ∧
    OrgCreate (storeWith [org1]) ctxCreate org1 = some ErrCode.AlreadyExistsErr := by
  refine ⟨?_, ?_, ?_, ?_, ?_, ?_, by decide, by decide⟩
  · intro st ctx o h
    simp [OrgCreate, h]
  · intro st ctx o h hv
    simp [OrgCreate, h, hv]
  · intro st ctx o e h hv hget
    simp [OrgCreate, h, hv, hget]
  · intro st ctx o r h hv hget
    simp [OrgCreate, h, hv, hget]
  · intro st ctx o e h hv hget hupd
    simp [OrgCreate, h, hv, hget, hupd]
  · intro st ctx o h hv hget hupd
    simp [OrgCreate, h, hv, hget, hupd]

/-- Witness for C7: each outcome realized at a concrete store, context and
record. -/
theorem orgCreate_outcomes_witness :
    OrgCreate cleanStore ctxRead org1 = some ErrCode.PermissionDenied ∧
      OrgCreate cleanStore ctxCreate badNameOrg = some ErrCode.InvalidArgument ∧
      OrgCreate failFetchStore ctxCreate org1 = some ErrCode.InternalErr ∧
      OrgCreate (storeWith [org1]) ctxCreate org1 = some ErrCode.AlreadyExistsErr ∧
      OrgCreate failUpdateStore ctxCreate org1 = some ErrCode.InternalErr ∧
      OrgCreate cleanStore ctxCreate org1 = none :=
  ⟨orgCreate_outcomes.1 cleanStore ctxRead org1 (by decide),
   orgCreate_outcomes.2.1 cleanStore ctxCreate badNameOrg (by decide) (by decide),
   orgCreate_outcomes.2.2.1 failFetchStore ctxCreate org1 storeErrMsg
     (by decide) (by decide) rfl,
   orgCreate_outcomes.2.2.2.1 (storeWith [org1]) ctxCreate org1 org1
     (by decide) (by decide) rfl,
   orgCreate_outcomes.2.2.2.2.1 failUpdateStore ctxCreate org1 storeErrMsg
     (by decide) (by decide) rfl rfl,
   orgCreate_outcomes.2.2.2.2.2.1 cleanStore ctxCreate org1
     (by decide) (by decide) rfl rfl⟩

/-- C8 counterexample: against the modelled controller, whose permission
check precedes validation, a caller without the respective permission gets
`PermissionDenied` — not `InvalidArgument` — for the invalid name
`"I like turtles"`; and `Update` of an invalid name with Update permission
but no existing record gets `NotFound`, because the existence check also
precedes validation. -/
theorem orgBadName_counterexample :
    OrgCreate cleanStore ctxRead badNameOrg = some ErrCode.PermissionDenied ∧
      OrgCreate cleanStore ctxRead badNameOrg ≠ some ErrCode.InvalidArgument ∧
      OrgUpdate cleanStore ctxUpdatePerm badNameOrg = some ErrCode.NotFound ∧
      OrgUpdate cleanStore ctxUpdatePerm badNameOrg ≠ some ErrCode.InvalidArgument := by
  refine ⟨by decide, by decide, by decide, by decide⟩

/-- C8 amended: a record whose name contains an uppercase letter or a
space is rejected with `InvalidArgument` by `Create` whenever the caller
holds Create permission (regardless of what the store holds), and by
`Update` whenever the caller holds Update permission and the store fetch
finds an existing record of that name. -/
theorem orgBadName_invalidArgument :
    (∀ (st : OrgStore) (ctx : ActionContext) (o : Organization),
       canPerm ctx RulePermCreate = true →
       hasUpperOrSpace o.name = true →
       OrgCreate st ctx o = some ErrCode.InvalidArgument) ∧
    (∀ (st : OrgStore) (ctx : ActionContext) (o r : Organization),
       canPerm ctx RulePermUpdate = true →
       hasUpperOrSpace o.name = true →
       st.getByName o.name = Except.ok (some r) →
       OrgUpdate st ctx o = some ErrCode.InvalidArgument) := by
  constructor
  · intro st ctx o h hbad
    have hv := validName_false_of_hasUpperOrSpace o.name hbad
    simp [OrgCreate, h, Organization.validate, hv]
  · intro st ctx o r h hbad hget
    have hv := validName_false_of_hasUpperOrSpace o.name hbad
    simp [OrgUpdate, h, hget, Organization.validate, hv]

/-- Witness for the amended C8: `"I like turtles"` rejected by `Create`
under Create permission on any store, and by `Update` under Update
permission when the record exists. -/
theorem orgBadName_invalidArgument_witness :
    OrgCreate cleanStore ctxCreate badNameOrg = some ErrCode.InvalidArgument ∧
      OrgUpdate (storeWith [badNameOrg]) ctxUpdatePerm badNameOrg =
        some ErrCode.InvalidArgument :=
  ⟨orgBadName_invalidArgument.1 cleanStore ctxCreate badNameOrg (by decide) (by decide),
   orgBadName_invalidArgument.2 (storeWith [badNameOrg]) ctxUpdatePerm badNameOrg
     badNameOrg (by decide) (by decide) rfl⟩

end Sensu
